import Mathlib

/-!
# store_mysql: a shallow embedding of `src/store_mysql.c`

The MySQL storage plugin keeps four process-wide configuration strings, an
index (`metric_idx`) from the key `comp_name:metric_name` to a heap-allocated
`struct mysql_metric_store`, and one mutex (`cfg_lock`).  The embedding makes
that state explicit and turns every entry point into a function from a state
(and from the answers of the environment: the allocator, the MySQL client
library, the random generator) to an outcome.

Conventions
* a C string is the list of its bytes before the terminating NUL (`CStr`);
* a pointer is a natural number, `0` being `NULL`;
* `ctype.h` is read in the "C" locale: only ASCII letters and digits are
  alphanumeric;
* an `(int)` conversion of an out-of-range value wraps modulo `2^32`;
* `msglog` is the `printf`-style logger of the host: a call whose arguments
  match its format only logs and is left out, a call whose arguments do not
  match its format is undefined behaviour.
-/

namespace StoreMysql

/-! ## C strings and the libc functions the plugin calls -/

/-- The bytes of a C string, terminating NUL excluded. -/
abbrev CStr := List Nat

/-- The bytes of an ASCII string literal. -/
def bytes (s : String) : CStr := s.toList.map Char.toNat

def EPERM : Int := 1
def ENOMEM : Int := 12
def EINVAL : Int := 22

/-- The function `isalnum` of `ctype.h` in the "C" locale. -/
def isalnum (c : Nat) : Bool :=
  (48 ≤ c && c ≤ 57) || (65 ≤ c && c ≤ 90) || (97 ≤ c && c ≤ 122)

/-- The function `toupper` of `ctype.h` in the "C" locale. -/
def toupper (c : Nat) : Nat :=
  if 97 ≤ c ∧ c ≤ 122 then c - 32 else c

/-- The function `strlen`. -/
def strlen (s : CStr) : Nat := s.length

/-- The call `sprintf` into a buffer of `cap` bytes: the text and its NUL have to fit,
writing past the end of the buffer is undefined behaviour (`none`). -/
def sprintf (cap : Nat) (text : CStr) : Option CStr :=
  if text.length + 1 ≤ cap then some text else none

/-- The call `snprintf(buf, size, ...)`: at most `size - 1` bytes of the text are kept. -/
def snprintf (size : Nat) (text : CStr) : CStr := text.take (size - 1)

/-- The `printf` conversion of an unsigned number (`%u`, `PRIu64`). -/
def fmt_u (n : Nat) : CStr := (Nat.toDigits 10 n).map Char.toNat

/-- The `printf` conversion of a signed number (`%d`, `%ld`). -/
def fmt_d (n : Int) : CStr :=
  if n < 0 then 45 :: fmt_u n.natAbs else fmt_u n.natAbs

/-- The conversion `(int)x` on a platform with 32-bit `int`. -/
def toInt32 (x : Int) : Int := (x + 2147483648) % 4294967296 - 2147483648

/-! ## The identifier clean-up inside `new_store` -/

/-- The loop `for (i = 0; i < strlen(s); i++) if (!isalnum(s[i])) s[i] = '_';`. -/
def cleanse : CStr → CStr
  | [] => []
  | c :: rest => (if isalnum c then c else 95) :: cleanse rest

/-- The assignment `s[0] = toupper(s[0])`; on the empty string it rewrites the
terminating NUL with itself. -/
def toupper0 : CStr → CStr
  | [] => []
  | c :: rest => toupper c :: rest

/-- The fragment that enters the table name: the replace loop, then `toupper`
on index 0 (lines 291-306 for the metric name, 308-319 for the component). -/
def sanitize (s : CStr) : CStr := toupper0 (cleanse s)

/-- The text `"%s:%s"` of `comp_name` and `metric_name`. -/
def key_text (comp_name metric_name : CStr) : CStr :=
  comp_name ++ 58 :: metric_name

/-- Lines 321-328: `sz`, then `snprintf(tablename, sz+5, "Metric%s%sValues", ...)`. -/
def make_tablename (cleansedcompname tempmetricname : CStr) : CStr :=
  let sz := strlen tempmetricname + strlen cleansedcompname + strlen (bytes "MetricValues")
  snprintf (sz + 5) (bytes "Metric" ++ cleansedcompname ++ tempmetricname ++ bytes "Values")

/-! ## Process state -/

/-- The `struct mysql_metric_store` of a fully built handle.  The string fields
are kept by value; the per-handle mutex is initialised and never taken in this
file, so it carries no state. -/
structure mysql_metric_store where
  store : Nat
  tablename : CStr
  cleansedmetricname : CStr
  conn : Nat
  metric_key : CStr
  ucontext : Nat
  deriving DecidableEq, Repr

/-- A call into the MySQL client library that reaches the server. -/
inductive DbCall where
  | real_connect (conn : Nat) (host user : CStr) (passwd : Option CStr) (schema : CStr)
  | query (conn : Nat) (text : CStr)
  | close (conn : Nat)
  deriving DecidableEq, Repr

/-- The file-scope variables: the four `db_*` strings (`none` is `NULL`), the
index `metric_idx`, the mutex `cfg_lock` (`true` when held); together with the
live `mysql_metric_store` blocks of the heap and the record of the calls made
to the database so far. -/
structure State where
  db_host : Option CStr
  db_schema : Option CStr
  db_user : Option CStr
  db_passwd : Option CStr
  metric_idx : List (CStr × Nat)
  heap : List (Nat × mysql_metric_store)
  cfg_lock : Bool
  db_calls : List DbCall
  deriving DecidableEq, Repr

/-- The state after `store_mysql_init`: nothing configured, empty index, free lock. -/
def init : State :=
  { db_host := none, db_schema := none, db_user := none, db_passwd := none,
    metric_idx := [], heap := [], cfg_lock := false, db_calls := [] }

/-- How a call ends: it returns (new state and value), it runs into undefined
behaviour (buffer overrun, `NULL` or dangling dereference), or it waits for
`cfg_lock` forever. -/
inductive Outcome (α : Type) where
  | ret (s : State) (v : α)
  | undefined
  | blocked
  deriving DecidableEq, Repr

/-- The value a call returned, if it returned. -/
def Outcome.value {α : Type} : Outcome α → Option α
  | .ret _ v => some v
  | .undefined => none
  | .blocked => none

/-- Modelled from the spec: `idx_find` of `sos/idx.h`, the lookup of the Registry,
"mapping from canonical identity string to Storage Handle"; `0` when absent. -/
def idx_find : List (CStr × Nat) → CStr → Nat
  | [], _ => 0
  | (k, v) :: rest, key => if k = key then v else idx_find rest key

/-- Modelled from the spec: `idx_add` of `sos/idx.h`, "entries are added on first
successful handle creation". -/
def idx_add (idx : List (CStr × Nat)) (key : CStr) (v : Nat) : List (CStr × Nat) :=
  (key, v) :: idx

/-- Modelled from the spec: `idx_delete` of `sos/idx.h`, "removed on close". -/
def idx_delete (idx : List (CStr × Nat)) (key : CStr) : List (CStr × Nat) :=
  idx.filter (fun kv => decide (kv.1 ≠ key))

/-- The live block at an address, if any. -/
def heap_find : List (Nat × mysql_metric_store) → Nat → Option mysql_metric_store
  | [], _ => none
  | (a, h) :: rest, p => if a = p then some h else heap_find rest p

/-- The call `free(ms)`. -/
def heap_free (heap : List (Nat × mysql_metric_store)) (p : Nat) :
    List (Nat × mysql_metric_store) :=
  heap.filter (fun ah => decide (ah.1 ≠ p))

/-- The call `calloc(1, sizeof *ms)`: the allocator proposes an address; it is
the result when it is not `NULL` and not a live block, otherwise the
allocation fails. -/
def calloc (heap : List (Nat × mysql_metric_store)) (proposed : Nat) : Nat :=
  if proposed ≠ 0 ∧ heap_find heap proposed = none then proposed else 0

/-- The call `strdup(s)`, which succeeds or returns `NULL`. -/
def strdup (ok : Bool) (s : CStr) : Option CStr := if ok then some s else none

/-- The call `pthread_mutex_lock(&cfg_lock)`; `none` when the lock is held. -/
def pthread_mutex_lock (s : State) : Option State :=
  if s.cfg_lock then none else some { s with cfg_lock := true }

/-- The call `pthread_mutex_unlock(&cfg_lock)`. -/
def pthread_mutex_unlock (s : State) : State := { s with cfg_lock := false }

/-! ## `config` -/

/-- Modelled from the spec: `av_value` of `ldmsd.h`, the value of a key-value
pair of the `config` verb, `NULL` when the key was not supplied. -/
def av_value : List (CStr × CStr) → CStr → Option CStr
  | [], _ => none
  | (n, v) :: rest, name => if n = name then some v else av_value rest name

/-- Whether each `strdup` of `config` succeeds. -/
structure ConfigEnv where
  strdup_host : Bool
  strdup_schema : Bool
  strdup_user : Bool
  strdup_passwd : Bool
  deriving DecidableEq, Repr

/-- Lines 118-176. -/
def config (s : State) (avl : List (CStr × CStr)) (e : ConfigEnv) : Outcome Int :=
  match av_value avl (bytes "dbhost") with
  | none => .ret s EINVAL
  | some value =>
    match pthread_mutex_lock s with
    | none => .blocked
    | some l =>
      let s1 := pthread_mutex_unlock { l with db_host := strdup e.strdup_host value }
      if s1.db_host = none then .ret s1 ENOMEM else
      match av_value avl (bytes "dbschema") with
      | none => .ret s1 EINVAL
      | some value =>
        match pthread_mutex_lock s1 with
        | none => .blocked
        | some l =>
          let s2 := pthread_mutex_unlock { l with db_schema := strdup e.strdup_schema value }
          if s2.db_schema = none then .ret s2 ENOMEM else
          match av_value avl (bytes "dbuser") with
          | none => .ret s2 EINVAL
          | some value =>
            match pthread_mutex_lock s2 with
            | none => .blocked
            | some l =>
              let s3 := pthread_mutex_unlock { l with db_user := strdup e.strdup_user value }
              if s3.db_user = none then .ret s3 ENOMEM else
              match av_value avl (bytes "dbpasswd") with
              | none => .ret s3 0
              | some value =>
                match pthread_mutex_lock s3 with
                | none => .blocked
                | some l =>
                  let s4 := pthread_mutex_unlock
                    { l with db_passwd := strdup e.strdup_passwd value }
                  if s4.db_passwd = none then .ret s4 ENOMEM else .ret s4 0

/-! ## Connections and tables -/

/-- Lines 87-110.  `mysql_init` is the object `mysql_init(NULL)` returns (`0`
for `NULL`), `mysql_real_connect` whether the session is established.  The
result is the state, the pointer left in `*conn` and the return code; `none`
when `strlen` is applied to a `NULL` configuration string. -/
def initConn (s : State) (mysql_init : Nat) (mysql_real_connect : Bool) :
    Option (State × Nat × Int) :=
  match s.db_host with
  | none => none
  | some host =>
    if strlen host = 0 then some (s, 0, EINVAL) else
    match s.db_schema with
    | none => none
    | some schema =>
      if strlen schema = 0 then some (s, 0, EINVAL) else
      match s.db_user with
      | none => none
      | some user =>
        if strlen user = 0 then some (s, 0, EINVAL) else
        if mysql_init = 0 then some (s, 0, EPERM) else
        let s1 := { s with db_calls :=
          s.db_calls ++ [DbCall.real_connect mysql_init host user s.db_passwd schema] }
        if mysql_real_connect then some (s1, mysql_init, 0) else some (s1, mysql_init, EPERM)

/-- The statement `createTable` builds in `query1`. -/
def create_query (tablename : CStr) : CStr :=
  snprintf 4095
    (bytes "CREATE TABLE IF NOT EXISTS " ++ tablename ++
     bytes " (`TableKey`  INT NOT NULL AUTO_INCREMENT NOT NULL, `CompId`  INT(32) NOT NULL, `Value` " ++
     bytes "BIGINT UNSIGNED" ++
     bytes " NOT NULL, `Time`  TIMESTAMP NOT NULL DEFAULT CURRENT_TIMESTAMP, `Level`  INT(32) NOT NULL DEFAULT 0, PRIMARY KEY  (`TableKey` ), KEY " ++
     tablename ++ bytes "_Time (`Time` ), KEY " ++
     tablename ++ bytes "_Level (`CompId` ,`Level` ,`Time` ))")

/-- Lines 230-262; `mysql_query` is the return code of the statement. -/
def createTable (s : State) (conn : Nat) (tablename : CStr) (mysql_query : Int) :
    State × Int :=
  if conn = 0 then (s, EPERM) else
  let s1 := { s with db_calls := s.db_calls ++ [DbCall.query conn (create_query tablename)] }
  if mysql_query ≠ 0 then (s1, -1) else (s1, 0)

/-! ## The handle registry -/

/-- Lines 206-222. -/
def get_store (s : State) (comp_name metric_name : CStr) : Outcome Nat :=
  match pthread_mutex_lock s with
  | none => .blocked
  | some l =>
    match sprintf 128 (key_text comp_name metric_name) with
    | none => .undefined
    | some metric_key =>
      let ms := idx_find l.metric_idx metric_key
      .ret (pthread_mutex_unlock l) ms

/-- Lines 224-228; dereferencing `NULL` or a freed block is undefined. -/
def get_ucontext (s : State) (ms : Nat) : Outcome Nat :=
  match heap_find s.heap ms with
  | none => .undefined
  | some h => .ret s h.ucontext

/-- The answers of the environment during one `new_store`: the address the
allocator proposes for `ms`, whether each later allocation succeeds, and what
the MySQL client library returns. -/
structure NewStoreEnv where
  calloc_ms : Nat
  strdup_cleansedmetricname : Bool
  strdup_tempmetricname : Bool
  strdup_cleansedcompname : Bool
  malloc_tablename : Bool
  strdup_metric_key : Bool
  mysql_init : Nat
  mysql_real_connect : Bool
  mysql_query : Int
  deriving DecidableEq, Repr

/-- Lines 264-359.  The block `ms` is entered into the heap only where the
function leaves it allocated; on the `err` labels it is freed and the function
still returns the pointer `ms`. -/
def new_store (s : State) (store : Nat) (comp_name metric_name : CStr) (ucontext : Nat)
    (e : NewStoreEnv) : Outcome Nat :=
  match pthread_mutex_lock s with
  | none => .blocked
  | some l =>
    match sprintf 128 (key_text comp_name metric_name) with
    | none => .undefined
    | some metric_key =>
      let found := idx_find l.metric_idx metric_key
      if found ≠ 0 then .ret (pthread_mutex_unlock l) found else
      let ms := calloc l.heap e.calloc_ms
      -- `if (!ms) goto out;`
      if ms = 0 then .ret (pthread_mutex_unlock l) 0 else
      -- `goto err1`
      if e.strdup_cleansedmetricname = false then .ret (pthread_mutex_unlock l) ms else
      let cleansedmetricname := cleanse metric_name
      -- `goto err1A`
      if e.strdup_tempmetricname = false then .ret (pthread_mutex_unlock l) ms else
      let tempmetricname := toupper0 cleansedmetricname
      -- line 309 tests `tempmetricname` again; a `NULL` `cleansedcompname` reaches `strlen`
      if e.strdup_cleansedcompname = false then .undefined else
      let cleansedcompname := toupper0 (cleanse comp_name)
      -- `goto err1A`
      if e.malloc_tablename = false then .ret (pthread_mutex_unlock l) ms else
      let tablename := make_tablename cleansedcompname tempmetricname
      -- `goto err2`
      if e.strdup_metric_key = false then .ret (pthread_mutex_unlock l) ms else
      match initConn l e.mysql_init e.mysql_real_connect with
      | none => .undefined
      | some (l1, conn, rc) =>
        -- `goto err3`
        if rc ≠ 0 then .ret (pthread_mutex_unlock l1) ms else
        let created := createTable l1 conn tablename e.mysql_query
        let l2 := created.1
        if created.2 = 0 then
          .ret (pthread_mutex_unlock
            { l2 with
              metric_idx := idx_add l2.metric_idx metric_key ms,
              heap := (ms, { store := store, tablename := tablename,
                             cleansedmetricname := cleansedmetricname, conn := conn,
                             metric_key := metric_key, ucontext := ucontext }) :: l2.heap })
            ms
        else
          -- `goto err3`
          .ret (pthread_mutex_unlock l2) ms

/-- The statement `store` builds in `insertStatement`. -/
def insert_statement (tablename : CStr) (comp_id : Nat) (val : Nat) (tv_sec : Int)
    (level : Int) : CStr :=
  let sec := toInt32 tv_sec
  snprintf 1023
    (bytes "INSERT INTO " ++ tablename ++ bytes " VALUES( NULL, " ++
     fmt_d (toInt32 (comp_id : Int)) ++ bytes ", " ++ fmt_u val ++
     bytes ", FROM_UNIXTIME(" ++ fmt_d sec ++ bytes "), " ++ fmt_d level ++ bytes " )")

/-- Lines 361-398 of `store`, up to and including the call
`mysql_query(ms->conn, insertStatement)`.  `val` is `ldms_get_u64(m)`, `level`
the value of `lround(-log2(drand48()))`.  The value is `some code` when the
function has returned `code` before building a statement, `none` when the
statement has been sent. -/
def store_send (s : State) (ms : Nat) (comp_id : Nat) (tv_sec _tv_usec : Int) (val : Nat)
    (level : Int) : Outcome (Option Int) :=
  if ms = 0 then .ret s (some EINVAL) else
  match heap_find s.heap ms with
  | none => .undefined
  | some h =>
    if h.conn = 0 then .ret s (some EPERM) else
    let insertStatement := insert_statement h.tablename comp_id val tv_sec level
    .ret { s with db_calls := s.db_calls ++ [DbCall.query h.conn insertStatement] } none

/-- Lines 361-405; `mysql_query` is the return code of the statement.  When the
statement fails, line 400 calls `msglog` with the format
`"Failed to perform query <%s>. Error: %d\n"` and the single argument
`mysqlerrx`: the `%s` conversion reads an `int` as a string pointer and the
`%d` conversion has no argument, which is undefined behaviour. -/
def store (s : State) (ms : Nat) (comp_id : Nat) (tv_sec tv_usec : Int) (val : Nat)
    (level : Int) (mysql_query : Int) : Outcome Int :=
  match store_send s ms comp_id tv_sec tv_usec val level with
  | .undefined => .undefined
  | .blocked => .blocked
  | .ret s1 (some code) => .ret s1 code
  | .ret s1 none => if mysql_query ≠ 0 then .undefined else .ret s1 0

/-- Lines 407-418. -/
def flush_store (s : State) (_ms : Nat) : Outcome Int := .ret s 0

/-- Lines 420-437. -/
def close_store (s : State) (ms : Nat) : Outcome Unit :=
  match pthread_mutex_lock s with
  | none => .blocked
  | some l =>
    -- `if (!_ms) return;`
    if ms = 0 then .ret l () else
    match heap_find l.heap ms with
    | none => .undefined
    | some h =>
      let l1 := { l with metric_idx := idx_delete l.metric_idx h.metric_key }
      let l2 := if h.conn ≠ 0 then
          { l1 with db_calls := l1.db_calls ++ [DbCall.close h.conn] } else l1
      .ret (pthread_mutex_unlock { l2 with heap := heap_free l2.heap ms }) ()

/-! ## Call sequences -/

/-- One call of an entry point of the plugin, with the answers of the environment. -/
inductive Call where
  | config (avl : List (CStr × CStr)) (e : ConfigEnv)
  | get_store (comp_name metric_name : CStr)
  | new_store (store : Nat) (comp_name metric_name : CStr) (ucontext : Nat) (e : NewStoreEnv)
  | get_ucontext (ms : Nat)
  | store (ms : Nat) (comp_id : Nat) (tv_sec tv_usec : Int) (val : Nat) (level : Int)
      (mysql_query : Int)
  | flush_store (ms : Nat)
  | close_store (ms : Nat)
  deriving DecidableEq, Repr

/-- The state a call leaves when it returns. -/
def Outcome.state {α : Type} : Outcome α → Option State
  | .ret s _ => some s
  | .undefined => none
  | .blocked => none

/-- The state after one call, `none` when the call does not return. -/
def exec (s : State) : Call → Option State
  | .config avl e => (config s avl e).state
  | .get_store c m => (get_store s c m).state
  | .new_store st c m u e => (new_store s st c m u e).state
  | .get_ucontext ms => (get_ucontext s ms).state
  | .store ms comp_id tv_sec tv_usec val level rc =>
      (store s ms comp_id tv_sec tv_usec val level rc).state
  | .flush_store ms => (flush_store s ms).state
  | .close_store ms => (close_store s ms).state

/-- The state after a sequence of calls, each of which returns. -/
def run : State → List Call → Option State
  | s, [] => some s
  | s, k :: rest =>
    match exec s k with
    | none => none
    | some s1 => run s1 rest

/-! ## Specification-side vocabulary -/

/-- An ASCII decimal digit. -/
def IsAsciiDigit (c : Nat) : Prop := 48 ≤ c ∧ c ≤ 57

/-- An ASCII upper-case letter. -/
def IsAsciiUpper (c : Nat) : Prop := 65 ≤ c ∧ c ≤ 90

/-- An ASCII lower-case letter. -/
def IsAsciiLower (c : Nat) : Prop := 97 ≤ c ∧ c ≤ 122

/-- An ASCII letter or digit. -/
def IsAsciiAlnum (c : Nat) : Prop := IsAsciiDigit c ∨ IsAsciiUpper c ∨ IsAsciiLower c

instance (c : Nat) : Decidable (IsAsciiDigit c) := by unfold IsAsciiDigit; infer_instance
instance (c : Nat) : Decidable (IsAsciiUpper c) := by unfold IsAsciiUpper; infer_instance
instance (c : Nat) : Decidable (IsAsciiLower c) := by unfold IsAsciiLower; infer_instance
instance (c : Nat) : Decidable (IsAsciiAlnum c) := by unfold IsAsciiAlnum; infer_instance

/-- The character the specification puts at a position: the source character
when it is an ASCII letter or digit, an underscore otherwise; upper-cased at
position 0. -/
def spec_char (i : Nat) (c : Nat) : Nat :=
  let r := if IsAsciiAlnum c then c else 95
  if i = 0 ∧ IsAsciiLower r then r - 32 else r

/-- The table name of the specification:
`"Metric" + SanitizedComponent + SanitizedMetric + "Values"`. -/
def spec_tablename (c m : CStr) : CStr :=
  bytes "Metric" ++ sanitize c ++ sanitize m ++ bytes "Values"

/-- The handle `new_store` builds for an identity. -/
def built_handle (store : Nat) (c m : CStr) (ucontext conn : Nat) : mysql_metric_store :=
  { store := store, tablename := make_tablename (sanitize c) (sanitize m),
    cleansedmetricname := cleanse m, conn := conn, metric_key := key_text c m,
    ucontext := ucontext }

/-- Consistency of the index and the heap: every registered key fits the
128-byte key buffer and leads to a live handle that carries this key and the
table name of an identity (satisfying `P`) with this key, and every live
handle is registered under its own key. -/
def Inv (P : CStr → CStr → Prop) (s : State) : Prop :=
  (∀ k, idx_find s.metric_idx k ≠ 0 →
    ∃ h, heap_find s.heap (idx_find s.metric_idx k) = some h ∧ h.metric_key = k ∧
      ∃ c m, P c m ∧ key_text c m = k ∧ k.length + 1 ≤ 128 ∧
        h.tablename = spec_tablename c m) ∧
  (∀ q h, heap_find s.heap q = some h → q ≠ 0 ∧ idx_find s.metric_idx h.metric_key = q)

/-- The identities a call registers, if any, satisfy `P`. -/
def Call.Uses (P : CStr → CStr → Prop) : Call → Prop
  | .new_store _ c m _ _ => P c m
  | _ => True

/-! ## Concrete inputs -/

/-- A configuration as `config dbhost=db1 dbschema=metrics dbuser=svc dbpasswd=old`
leaves it. -/
def configured : State :=
  { db_host := some (bytes "db1"), db_schema := some (bytes "metrics"),
    db_user := some (bytes "svc"), db_passwd := some (bytes "old"),
    metric_idx := [], heap := [], cfg_lock := false, db_calls := [] }

/-- Every `strdup` of `config` succeeds. -/
def copies_succeed : ConfigEnv :=
  { strdup_host := true, strdup_schema := true, strdup_user := true, strdup_passwd := true }

/-- Every allocation succeeds (the block is placed at address 4096), the
connection is established and the `CREATE TABLE` statement succeeds. -/
def env_good : NewStoreEnv :=
  { calloc_ms := 4096, strdup_cleansedmetricname := true, strdup_tempmetricname := true,
    strdup_cleansedcompname := true, malloc_tablename := true, strdup_metric_key := true,
    mysql_init := 77, mysql_real_connect := true, mysql_query := 0 }

/-- As `env_good`, but the server refuses the connection. -/
def env_no_connect : NewStoreEnv := { env_good with mysql_real_connect := false }

/-- As `env_good`, but the `CREATE TABLE` statement fails. -/
def env_no_table : NewStoreEnv := { env_good with mysql_query := 1 }

/-- A component name of 64 letters `a`. -/
def long_comp : CStr := List.replicate 64 97

/-- A metric name of 64 letters `b`. -/
def long_metric : CStr := List.replicate 64 98

/-- The call `config dbhost=db2 dbschema=m2`: no `dbuser`. -/
def avl_no_user : List (CStr × CStr) :=
  [(bytes "dbhost", bytes "db2"), (bytes "dbschema", bytes "m2")]

/-- The call `config dbhost=db2 dbschema=m2 dbuser=`: an empty `dbuser`. -/
def avl_empty_user : List (CStr × CStr) :=
  [(bytes "dbhost", bytes "db2"), (bytes "dbschema", bytes "m2"), (bytes "dbuser", [])]

/-- The call `config dbhost=db2 dbschema=m2 dbuser=u2`: no `dbpasswd`. -/
def avl_no_passwd : List (CStr × CStr) :=
  [(bytes "dbhost", bytes "db2"), (bytes "dbschema", bytes "m2"), (bytes "dbuser", bytes "u2")]

/-- The call `config dbhost=db1 dbschema=metrics dbuser=svc dbpasswd=` of the
round-trip scenario. -/
def avl_round_trip : List (CStr × CStr) :=
  [(bytes "dbhost", bytes "db1"), (bytes "dbschema", bytes "metrics"),
   (bytes "dbuser", bytes "svc"), (bytes "dbpasswd", [])]

/-- The first two calls of the round-trip scenario: `config`, then
`new_store("node01", "cpu.util", NULL)`. -/
def round_trip_calls : List Call :=
  [Call.config avl_round_trip copies_succeed,
   Call.new_store 1 (bytes "node01") (bytes "cpu.util") 0 env_good]

/-- The state after `round_trip_calls`: one handle, at address 4096. -/
def registered : State := (run init round_trip_calls).getD init

/-- The pointer `p` is registered under `key` and points to the live handle `hd`. -/
def Held (s : State) (p : Nat) (key : CStr) (hd : mysql_metric_store) : Prop :=
  idx_find s.metric_idx key = p ∧ heap_find s.heap p = some hd

/-- A second good environment: the allocator proposes the address 8192. -/
def env_good2 : NewStoreEnv := { env_good with calloc_ms := 8192, mysql_init := 78 }

/-- The state after `config` and `new_store("a:b", "c", 0)`. -/
def registered_colon : State :=
  (run init [Call.config avl_round_trip copies_succeed,
    Call.new_store 1 (bytes "a:b") (bytes "c") 0 env_good]).getD init

/-- A component name without the byte `:`. -/
def NoColon (c : CStr) : Prop := 58 ∉ c

instance (c : CStr) : Decidable (NoColon c) := by unfold NoColon; infer_instance

/-- The statement the specification describes: an insert into the table of the
handle that carries, as decimal numbers, the component id, the value, the
whole seconds of the timestamp and the level. -/
def spec_insert (tablename : CStr) (comp_id val : Nat) (tv_sec level : Int) : CStr :=
  bytes "INSERT INTO " ++ tablename ++ bytes " VALUES( NULL, " ++ fmt_u comp_id ++
    bytes ", " ++ fmt_u val ++ bytes ", FROM_UNIXTIME(" ++ fmt_d tv_sec ++ bytes "), " ++
    fmt_d level ++ bytes " )"

/-- The statements of the `DbCall.query` entries of a record, in order. -/
def queries : List DbCall → List CStr
  | [] => []
  | DbCall.query _ text :: rest => text :: queries rest
  | _ :: rest => queries rest

/-! # Theorems -/


/-! ## The identifier clean-up -/

theorem isalnum_iff (c : Nat) : isalnum c = true ↔ IsAsciiAlnum c := by
  simp [isalnum, IsAsciiAlnum, IsAsciiDigit, IsAsciiUpper, IsAsciiLower, or_assoc]

theorem cleanse_length (s : CStr) : (cleanse s).length = s.length := by
  induction s with
  | nil => rfl
  | cons c rest ih => simp [cleanse, ih]

theorem toupper0_length (s : CStr) : (toupper0 s).length = s.length := by
  cases s <;> simp [toupper0]

theorem sanitize_length (s : CStr) : (sanitize s).length = s.length := by
  simp [sanitize, toupper0_length, cleanse_length]

theorem cleanse_getElem? (s : CStr) (i : Nat) :
    (cleanse s)[i]? = (s[i]?).map (fun c => if IsAsciiAlnum c then c else 95) := by
  induction s generalizing i with
  | nil => simp [cleanse]
  | cons c rest ih =>
    cases i with
    | zero => simp [cleanse, isalnum_iff]
    | succ j => simp [cleanse, ih]

theorem sanitize_getElem? (s : CStr) (i : Nat) :
    (sanitize s)[i]? = (s[i]?).map (spec_char i) := by
  cases s with
  | nil => simp [sanitize, cleanse, toupper0]
  | cons c rest =>
    cases i with
    | zero =>
      simp [sanitize, cleanse, toupper0, spec_char, toupper, isalnum_iff, IsAsciiLower]
    | succ j =>
      have h := cleanse_getElem? rest j
      have hf : spec_char (j + 1) = fun c => if IsAsciiAlnum c then c else 95 := by
        funext c; simp [spec_char]
      simp [sanitize, cleanse, toupper0, h, hf]

theorem cleanse_mem (s : CStr) : ∀ x ∈ cleanse s, IsAsciiAlnum x ∨ x = 95 := by
  induction s with
  | nil => simp [cleanse]
  | cons c rest ih =>
    intro x hx
    simp only [cleanse, List.mem_cons] at hx
    rcases hx with hx | hx
    · by_cases hc : isalnum c = true
      · left; rw [hx, if_pos hc]; exact (isalnum_iff c).1 hc
      · right; rw [hx, if_neg hc]
    · exact ih x hx

theorem toupper_alnum (x : Nat) (h : IsAsciiAlnum x ∨ x = 95) :
    IsAsciiAlnum (toupper x) ∨ toupper x = 95 := by
  unfold toupper IsAsciiAlnum IsAsciiDigit IsAsciiUpper IsAsciiLower at *
  split <;> omega

theorem sanitize_mem (s : CStr) : ∀ x ∈ sanitize s, IsAsciiAlnum x ∨ x = 95 := by
  intro x hx
  unfold sanitize at hx
  cases hs : cleanse s with
  | nil => rw [hs] at hx; simp [toupper0] at hx
  | cons c rest =>
    rw [hs] at hx
    simp only [toupper0, List.mem_cons] at hx
    have hall := cleanse_mem s
    rw [hs] at hall
    rcases hx with hx | hx
    · rw [hx]; exact toupper_alnum c (hall c (by simp))
    · exact hall x (by simp [hx])

theorem make_tablename_eq (a b : CStr) :
    make_tablename a b = bytes "Metric" ++ a ++ b ++ bytes "Values" := by
  unfold make_tablename snprintf strlen
  apply List.take_of_length_le
  simp [bytes]
  omega

theorem spec_tablename_length (c m : CStr) :
    (spec_tablename c m).length = c.length + m.length + 12 := by
  simp [spec_tablename, sanitize_length, bytes]
  omega

/-! ## Locking and the helper calls -/

theorem lock_eq_some {s l : State} (h : pthread_mutex_lock s = some l) :
    s.cfg_lock = false ∧ l = { s with cfg_lock := true } := by
  unfold pthread_mutex_lock at h
  split at h
  · simp at h
  · simp at h; simp_all

theorem lock_eq_none {s : State} (h : pthread_mutex_lock s = none) : s.cfg_lock = true := by
  unfold pthread_mutex_lock at h
  split at h
  · assumption
  · simp at h

theorem lock_of_free {s : State} (h : s.cfg_lock = false) :
    pthread_mutex_lock s = some { s with cfg_lock := true } := by
  simp [pthread_mutex_lock, h]

theorem unlock_lock {s : State} (h : s.cfg_lock = false) :
    pthread_mutex_unlock { s with cfg_lock := true } = s := by
  cases s; simp_all [pthread_mutex_unlock]

theorem sprintf_eq_some {cap : Nat} {t k : CStr} (h : sprintf cap t = some k) :
    t.length + 1 ≤ cap ∧ k = t := by
  unfold sprintf at h
  split at h
  · simp at h; exact ⟨by assumption, h.symm⟩
  · simp at h

theorem initConn_some {s s1 : State} {a : Nat} {b : Bool} {conn : Nat} {rc : Int}
    (h : initConn s a b = some (s1, conn, rc)) :
    s1 = { s with db_calls := s1.db_calls } ∧ (rc = 0 → conn ≠ 0) := by
  unfold initConn at h
  split at h
  · simp at h
  · split at h
    · simp at h; obtain ⟨h1, h2, h3⟩ := h; subst h1; simp [← h3, EINVAL]
    · split at h
      · simp at h
      · split at h
        · simp at h; obtain ⟨h1, h2, h3⟩ := h; subst h1; simp [← h3, EINVAL]
        · split at h
          · simp at h
          · split at h
            · simp at h; obtain ⟨h1, h2, h3⟩ := h; subst h1; simp [← h3, EINVAL]
            · split at h
              · simp at h; obtain ⟨h1, h2, h3⟩ := h; subst h1; simp [← h3, EPERM]
              · split at h
                · simp at h; obtain ⟨h1, h2, h3⟩ := h; subst h1; subst h2; simp; intro _; assumption
                · simp at h; obtain ⟨h1, h2, h3⟩ := h; subst h1; simp [← h3, EPERM]

theorem createTable_fst (s : State) (conn : Nat) (t : CStr) (q : Int) :
    (createTable s conn t q).1 = { s with db_calls := (createTable s conn t q).1.db_calls } := by
  unfold createTable
  split
  · rfl
  · split <;> rfl

/-! ## The three ways `new_store` returns -/

theorem new_store_ret {s s1 : State} {st : Nat} {c m : CStr} {u : Nat} {e : NewStoreEnv}
    {p : Nat} (h : new_store s st c m u e = .ret s1 p) :
    s.cfg_lock = false ∧ (key_text c m).length + 1 ≤ 128 ∧
    ((idx_find s.metric_idx (key_text c m) ≠ 0 ∧ p = idx_find s.metric_idx (key_text c m) ∧
        s1 = s) ∨
     (idx_find s.metric_idx (key_text c m) = 0 ∧ (p = 0 ∨ heap_find s.heap p = none) ∧
        s1 = { s with db_calls := s1.db_calls }) ∨
     (idx_find s.metric_idx (key_text c m) = 0 ∧ p ≠ 0 ∧ heap_find s.heap p = none ∧
        ∃ conn, conn ≠ 0 ∧
          s1 = { s with
                 metric_idx := idx_add s.metric_idx (key_text c m) p,
                 heap := (p, built_handle st c m u conn) :: s.heap,
                 db_calls := s1.db_calls })) := by
  unfold new_store at h
  cases hl : pthread_mutex_lock s with
  | none => rw [hl] at h; simp at h
  | some l =>
    obtain ⟨hfree, hl2⟩ := lock_eq_some hl
    subst hl2
    rw [hl] at h
    cases hk : sprintf 128 (key_text c m) with
    | none => rw [hk] at h; simp at h
    | some key =>
      obtain ⟨hfit, hkey⟩ := sprintf_eq_some hk
      subst hkey
      rw [hk] at h
      refine ⟨hfree, hfit, ?_⟩
      simp only [] at h
      by_cases hfound : idx_find s.metric_idx (key_text c m) = 0
      · have hcal : calloc s.heap e.calloc_ms = 0 ∨
            (calloc s.heap e.calloc_ms ≠ 0 ∧
              heap_find s.heap (calloc s.heap e.calloc_ms) = none) := by
          unfold calloc
          split
          · right; simp_all
          · left; rfl
        right
        rw [if_neg (by simpa using hfound)] at h
        split at h
        · simp at h; obtain ⟨h1, h2⟩ := h
          left; subst h1; subst h2
          rw [unlock_lock hfree]; exact ⟨hfound, Or.inl rfl, by cases s; rfl⟩
        · have hp : heap_find s.heap (calloc s.heap e.calloc_ms) = none := by
            rcases hcal with hc | hc
            · contradiction
            · exact hc.2
          have hfail : ∀ {s2 : State} {q : Nat},
              Outcome.ret (pthread_mutex_unlock { s with cfg_lock := true }) (calloc s.heap e.calloc_ms)
                = Outcome.ret s2 q →
              idx_find s.metric_idx (key_text c m) = 0 ∧ (q = 0 ∨ heap_find s.heap q = none) ∧
                s2 = { s with db_calls := s2.db_calls } := by
            intro s2 q hh
            simp at hh; obtain ⟨h1, h2⟩ := hh
            subst h1; subst h2
            rw [unlock_lock hfree]; exact ⟨hfound, Or.inr hp, by cases s; rfl⟩
          split at h
          · exact Or.inl (hfail h)
          split at h
          · exact Or.inl (hfail h)
          split at h
          · simp at h
          split at h
          · exact Or.inl (hfail h)
          split at h
          · exact Or.inl (hfail h)
          split at h
          · simp at h
          · rename_i l1 conn rc hinit
            obtain ⟨hl1, hconn⟩ := initConn_some hinit
            split at h
            · simp at h; obtain ⟨h1, h2⟩ := h
              left; subst h1; subst h2
              refine ⟨hfound, Or.inr hp, ?_⟩
              rw [hl1]; cases s; simp [pthread_mutex_unlock] at *; assumption
            · rename_i hrc
              have hrc0 : rc = 0 := by simpa using hrc
              have hl2 := createTable_fst l1 conn
                (make_tablename (toupper0 (cleanse c)) (toupper0 (cleanse m))) e.mysql_query
              split at h
              · simp at h; obtain ⟨h1, h2⟩ := h
                right; subst h1; subst h2
                refine ⟨hfound, by assumption, hp, conn, hconn hrc0, ?_⟩
                rw [hl2, hl1]; cases s; simp [pthread_mutex_unlock, built_handle, sanitize] at *; assumption
              · simp at h; obtain ⟨h1, h2⟩ := h
                left; subst h1; subst h2
                refine ⟨hfound, Or.inr hp, ?_⟩
                rw [hl2, hl1]; cases s; simp [pthread_mutex_unlock] at *; assumption
      · left
        rw [if_pos (by simpa using hfound)] at h
        simp at h; obtain ⟨h1, h2⟩ := h
        subst h1
        exact ⟨hfound, h2.symm, unlock_lock hfree⟩

/-! ## The index and the heap as finite maps -/

theorem idx_find_add (idx : List (CStr × Nat)) (k : CStr) (v : Nat) (k1 : CStr) :
    idx_find (idx_add idx k v) k1 = if k = k1 then v else idx_find idx k1 := by
  simp [idx_add, idx_find]

theorem idx_find_delete (idx : List (CStr × Nat)) (k k1 : CStr) :
    idx_find (idx_delete idx k) k1 = if k1 = k then 0 else idx_find idx k1 := by
  induction idx with
  | nil => simp [idx_delete, idx_find]
  | cons kv rest ih =>
    obtain ⟨a, v⟩ := kv
    unfold idx_delete at ih ⊢
    by_cases ha : a = k
    · subst ha
      simp only [List.filter, ne_eq, not_true_eq_false, decide_False]
      rw [ih]
      by_cases h1 : k1 = a
      · simp [h1]
      · have : ¬ a = k1 := fun h => h1 h.symm
        simp [h1, idx_find, this]
    · simp only [List.filter, ne_eq, ha, not_false_eq_true, decide_True]
      simp only [idx_find]
      rw [ih]
      by_cases h1 : k1 = k
      · have : ¬ a = k1 := fun h => ha (h.trans h1)
        simp [h1, this, ha]
      · simp [h1]

theorem heap_find_cons (heap : List (Nat × mysql_metric_store)) (p : Nat)
    (h : mysql_metric_store) (q : Nat) :
    heap_find ((p, h) :: heap) q = if p = q then some h else heap_find heap q := by
  simp [heap_find]

theorem heap_find_free (heap : List (Nat × mysql_metric_store)) (p q : Nat) :
    heap_find (heap_free heap p) q = if q = p then none else heap_find heap q := by
  induction heap with
  | nil => simp [heap_free, heap_find]
  | cons ah rest ih =>
    obtain ⟨a, v⟩ := ah
    unfold heap_free at ih ⊢
    by_cases ha : a = p
    · subst ha
      simp only [List.filter, ne_eq, not_true_eq_false, decide_False]
      rw [ih]
      by_cases h1 : q = a
      · simp [h1]
      · have : ¬ a = q := fun h => h1 h.symm
        simp [h1, heap_find, this]
    · simp only [List.filter, ne_eq, ha, not_false_eq_true, decide_True]
      simp only [heap_find]
      rw [ih]
      by_cases h1 : q = p
      · have : ¬ a = q := fun h => ha (h.trans h1)
        simp [h1, this, ha]
      · simp [h1]

/-! ## What each call leaves alone -/

theorem config_ret {s s1 : State} {avl : List (CStr × CStr)} {e : ConfigEnv} {v : Int}
    (h : config s avl e = .ret s1 v) :
    s1.metric_idx = s.metric_idx ∧ s1.heap = s.heap ∧ s1.db_calls = s.db_calls ∧
      s1.cfg_lock = s.cfg_lock := by
  unfold config at h
  cases hs : s.cfg_lock
  · simp [pthread_mutex_lock, pthread_mutex_unlock, hs] at h
    repeat' split at h
    all_goals first
      | (simp at h; done)
      | (simp at h; obtain ⟨h1, _⟩ := h; subst h1; simp [hs])
  · simp [pthread_mutex_lock, pthread_mutex_unlock, hs] at h
    repeat' split at h
    all_goals first
      | (simp at h; done)
      | (simp at h; obtain ⟨h1, _⟩ := h; subst h1; simp [hs])

theorem get_store_ret {s s1 : State} {c m : CStr} {v : Nat}
    (h : get_store s c m = .ret s1 v) :
    s1 = s ∧ s.cfg_lock = false ∧ v = idx_find s.metric_idx (key_text c m) := by
  unfold get_store at h
  cases hl : pthread_mutex_lock s with
  | none => rw [hl] at h; simp at h
  | some l =>
    obtain ⟨hfree, hl2⟩ := lock_eq_some hl
    subst hl2
    rw [hl] at h
    cases hk : sprintf 128 (key_text c m) with
    | none => rw [hk] at h; simp at h
    | some key =>
      obtain ⟨_, hkey⟩ := sprintf_eq_some hk
      subst hkey
      rw [hk] at h
      simp at h
      obtain ⟨h1, h2⟩ := h
      exact ⟨by rw [← h1]; exact unlock_lock hfree, hfree, h2.symm⟩

theorem store_send_ret {s s1 : State} {ms comp_id : Nat} {tv_sec tv_usec : Int} {val : Nat}
    {level : Int} {v : Option Int}
    (h : store_send s ms comp_id tv_sec tv_usec val level = .ret s1 v) :
    s1 = { s with db_calls := s1.db_calls } := by
  unfold store_send at h
  repeat' split at h
  all_goals first
    | (simp at h; done)
    | (simp at h; obtain ⟨h1, _⟩ := h; subst h1; rfl)

theorem store_ret {s s1 : State} {ms comp_id : Nat} {tv_sec tv_usec : Int} {val : Nat}
    {level q v : Int} (h : store s ms comp_id tv_sec tv_usec val level q = .ret s1 v) :
    s1 = { s with db_calls := s1.db_calls } := by
  unfold store at h
  split at h
  · simp at h
  · simp at h
  · rename_i s2 code hsend
    simp at h
    rw [← h.1]
    exact store_send_ret hsend
  · rename_i s2 hsend
    split at h
    · simp at h
    · simp at h
      rw [← h.1]
      exact store_send_ret hsend

theorem close_store_ret {s s1 : State} {ms : Nat} (h : close_store s ms = .ret s1 ()) :
    s.cfg_lock = false ∧
    ((ms = 0 ∧ s1 = { s with cfg_lock := true }) ∨
     (ms ≠ 0 ∧ ∃ hd, heap_find s.heap ms = some hd ∧
        s1 = { s with metric_idx := idx_delete s.metric_idx hd.metric_key,
                      heap := heap_free s.heap ms,
                      db_calls := s1.db_calls })) := by
  unfold close_store at h
  cases hl : pthread_mutex_lock s with
  | none => rw [hl] at h; simp at h
  | some l =>
    obtain ⟨hfree, hl2⟩ := lock_eq_some hl
    subst hl2
    rw [hl] at h
    refine ⟨hfree, ?_⟩
    simp only [] at h
    split at h
    · left; simp at h; exact ⟨by assumption, h.symm⟩
    · right
      refine ⟨by assumption, ?_⟩
      split at h
      · simp at h
      · rename_i hd hfind
        refine ⟨hd, hfind, ?_⟩
        simp at h
        rw [← h]
        cases s
        simp [pthread_mutex_unlock] at *
        split <;> simp [hfree]

/-! ## The invariant of the registry -/

theorem state_eq_some {α : Type} {o : Outcome α} {s1 : State} (h : o.state = some s1) :
    ∃ v, o = .ret s1 v := by
  cases o with
  | ret s v => simp [Outcome.state] at h; exact ⟨v, by rw [h]⟩
  | undefined => simp [Outcome.state] at h
  | blocked => simp [Outcome.state] at h

theorem Inv_of_eq {P : CStr → CStr → Prop} {s s1 : State}
    (hi : s1.metric_idx = s.metric_idx) (hh : s1.heap = s.heap) (h : Inv P s) : Inv P s1 := by
  unfold Inv at *
  rw [hi, hh]
  exact h

theorem Inv_init (P : CStr → CStr → Prop) : Inv P init := by
  constructor
  · intro k hk; simp [init, idx_find] at hk
  · intro q h hq; simp [init, heap_find] at hq

theorem Inv_new_store {P : CStr → CStr → Prop} {s s1 : State} {st : Nat} {c m : CStr}
    {u : Nat} {e : NewStoreEnv} {p : Nat} (hinv : Inv P s) (hP : P c m)
    (h : new_store s st c m u e = .ret s1 p) : Inv P s1 := by
  obtain ⟨_, hfit, hcase⟩ := new_store_ret h
  rcases hcase with ⟨_, _, hs⟩ | ⟨_, _, hs⟩ | ⟨habsent, hp0, hfresh, conn, _, hs⟩
  · rw [hs]; exact hinv
  · exact Inv_of_eq (by rw [hs]) (by rw [hs]) hinv
  · obtain ⟨h1, h2⟩ := hinv
    have hidx : s1.metric_idx = idx_add s.metric_idx (key_text c m) p := by rw [hs]
    have hheap : s1.heap = (p, built_handle st c m u conn) :: s.heap := by rw [hs]
    constructor
    · intro k hk
      rw [hidx, hheap] at *
      rw [idx_find_add] at hk ⊢
      by_cases hkk : key_text c m = k
      · rw [if_pos hkk]
        rw [heap_find_cons, if_pos rfl]
        exact ⟨_, rfl, hkk, c, m, hP, hkk, by rw [← hkk]; exact hfit, make_tablename_eq _ _⟩
      · rw [if_neg hkk] at hk ⊢
        obtain ⟨hd, hf, hrest⟩ := h1 k hk
        have hne : p ≠ idx_find s.metric_idx k := by
          intro heq; rw [← heq, hfresh] at hf; simp at hf
        rw [heap_find_cons, if_neg hne]
        exact ⟨hd, hf, hrest⟩
    · intro q hd hq
      rw [hidx, hheap] at *
      rw [heap_find_cons] at hq
      by_cases hpq : p = q
      · rw [if_pos hpq] at hq
        simp at hq
        subst hq
        refine ⟨by rw [← hpq]; exact hp0, ?_⟩
        rw [idx_find_add]
        simp [built_handle, hpq]
      · rw [if_neg hpq] at hq
        obtain ⟨hq0, hreg⟩ := h2 q hd hq
        refine ⟨hq0, ?_⟩
        rw [idx_find_add]
        have hne : key_text c m ≠ hd.metric_key := by
          intro heq; rw [← heq, habsent] at hreg; exact hq0 hreg.symm
        rw [if_neg hne]
        exact hreg

theorem Inv_close_store {P : CStr → CStr → Prop} {s s1 : State} {ms : Nat}
    (hinv : Inv P s) (h : close_store s ms = .ret s1 ()) : Inv P s1 := by
  obtain ⟨_, hcase⟩ := close_store_ret h
  rcases hcase with ⟨_, hs⟩ | ⟨_, hd, hfind, hs⟩
  · exact Inv_of_eq (by rw [hs]) (by rw [hs]) hinv
  · obtain ⟨h1, h2⟩ := hinv
    have hidx : s1.metric_idx = idx_delete s.metric_idx hd.metric_key := by rw [hs]
    have hheap : s1.heap = heap_free s.heap ms := by rw [hs]
    have hreg := (h2 ms hd hfind).2
    constructor
    · intro k hk
      rw [hidx, hheap] at *
      rw [idx_find_delete] at hk ⊢
      by_cases hkk : k = hd.metric_key
      · rw [if_pos hkk] at hk; exact absurd rfl hk
      · rw [if_neg hkk] at hk ⊢
        obtain ⟨hd1, hf, hkey, hrest⟩ := h1 k hk
        have hne : idx_find s.metric_idx k ≠ ms := by
          intro heq
          rw [heq, hfind] at hf
          simp at hf
          rw [hf] at hkk
          exact hkk hkey.symm
        rw [heap_find_free, if_neg hne]
        exact ⟨hd1, hf, hkey, hrest⟩
    · intro q hd1 hq
      rw [hidx, hheap] at *
      rw [heap_find_free] at hq
      by_cases hqm : q = ms
      · rw [if_pos hqm] at hq; simp at hq
      · rw [if_neg hqm] at hq
        obtain ⟨hq0, hreg1⟩ := h2 q hd1 hq
        refine ⟨hq0, ?_⟩
        rw [idx_find_delete]
        have hne : hd1.metric_key ≠ hd.metric_key := by
          intro heq; rw [heq, hreg] at hreg1; exact hqm hreg1.symm
        rw [if_neg hne]
        exact hreg1

theorem Inv_exec {P : CStr → CStr → Prop} {s s1 : State} {k : Call}
    (hinv : Inv P s) (hk : k.Uses P) (h : exec s k = some s1) : Inv P s1 := by
  cases k with
  | config avl e =>
    obtain ⟨v, hv⟩ := state_eq_some h
    obtain ⟨hi, hh, _⟩ := config_ret hv
    exact Inv_of_eq hi hh hinv
  | get_store c m =>
    obtain ⟨v, hv⟩ := state_eq_some h
    rw [(get_store_ret hv).1]; exact hinv
  | new_store st c m u e =>
    obtain ⟨v, hv⟩ := state_eq_some h
    exact Inv_new_store hinv hk hv
  | get_ucontext ms =>
    simp only [exec, get_ucontext] at h
    split at h
    · simp [Outcome.state] at h
    · simp [Outcome.state] at h; rw [← h]; exact hinv
  | store ms comp_id tv_sec tv_usec val level rc =>
    obtain ⟨v, hv⟩ := state_eq_some h
    have hs := store_ret hv
    exact Inv_of_eq (by rw [hs]) (by rw [hs]) hinv
  | flush_store ms =>
    simp [exec, flush_store, Outcome.state] at h; rw [← h]; exact hinv
  | close_store ms =>
    obtain ⟨v, hv⟩ := state_eq_some h
    exact Inv_close_store hinv hv

theorem Inv_run {P : CStr → CStr → Prop} {calls : List Call} :
    ∀ {s s1 : State}, Inv P s → (∀ k ∈ calls, k.Uses P) → run s calls = some s1 → Inv P s1 := by
  induction calls with
  | nil => intro s s1 hinv _ h; simp [run] at h; rw [← h]; exact hinv
  | cons k rest ih =>
    intro s s1 hinv hall h
    simp only [run] at h
    cases hk : exec s k with
    | none => rw [hk] at h; simp at h
    | some s2 =>
      rw [hk] at h
      exact ih (Inv_exec hinv (hall k (by simp)) hk) (fun k1 hk1 => hall k1 (by simp [hk1])) h

/-! ## C2: the sanitized fragment -/

/-- C2: the sanitized fragment has the length of its source; at each position
it holds the source character when that is an ASCII letter or digit and an
underscore otherwise, upper-cased at position 0; hence every output character
is alphanumeric or an underscore, the first one is an upper-case letter when
the first source character is a letter, and the empty string stays empty. -/
theorem C2_sanitize_shape (s : CStr) :
    (sanitize s).length = s.length ∧
    (∀ i, (sanitize s)[i]? = (s[i]?).map (spec_char i)) ∧
    (∀ x ∈ sanitize s, IsAsciiAlnum x ∨ x = 95) ∧
    (∀ c rest, s = c :: rest → IsAsciiUpper c ∨ IsAsciiLower c →
      ∃ u tail, sanitize s = u :: tail ∧ IsAsciiUpper u) ∧
    sanitize [] = [] := by
  refine ⟨sanitize_length s, sanitize_getElem? s, sanitize_mem s, ?_, rfl⟩
  intro c rest hs hc
  subst hs
  refine ⟨toupper (if isalnum c then c else 95), cleanse rest, rfl, ?_⟩
  have hal : isalnum c = true := (isalnum_iff c).2 (Or.inr hc)
  rw [if_pos hal]
  unfold toupper IsAsciiUpper IsAsciiLower at *
  split <;> omega

/-- C2 at the metric name `cpu.util`: the fragment is `Cpu_util`. -/
theorem C2_sanitize_shape_witness :
    sanitize (bytes "cpu.util") = bytes "Cpu_util" ∧
    (sanitize (bytes "cpu.util")).length = (bytes "cpu.util").length ∧
    (∃ u tail, sanitize (bytes "cpu.util") = u :: tail ∧ IsAsciiUpper u) :=
  ⟨by decide, (C2_sanitize_shape (bytes "cpu.util")).1,
    (C2_sanitize_shape (bytes "cpu.util")).2.2.2.1 99 (bytes "pu.util") (by decide)
      (by decide)⟩

/-! ## C1: the table name -/

/-- The table name of a handle that `new_store` has just created is the one the
specification derives, provided the key fits the 128-byte buffer (which the
return of the call implies). -/
theorem new_store_created_tablename {s s1 : State} {st : Nat} {c m : CStr} {u : Nat}
    {e : NewStoreEnv} {p : Nat} {hd : mysql_metric_store}
    (hinv : Inv (fun _ _ => True) s)
    (h : new_store s st c m u e = .ret s1 p)
    (habsent : idx_find s.metric_idx (key_text c m) = 0)
    (hlive : heap_find s1.heap p = some hd) :
    hd.tablename = spec_tablename c m ∧ hd.tablename.length = c.length + m.length + 12 ∧
      c.length + m.length ≤ 126 := by
  obtain ⟨_, hfit, hcase⟩ := new_store_ret h
  have hlen : c.length + m.length ≤ 126 := by
    simp [key_text] at hfit; omega
  rcases hcase with ⟨hne, _, _⟩ | ⟨_, hp, hs⟩ | ⟨_, _, _, conn, _, hs⟩
  · exact absurd habsent hne
  · have hheap : s1.heap = s.heap := by rw [hs]
    rw [hheap] at hlive
    rcases hp with hp | hp
    · subst hp; exact absurd rfl (hinv.2 0 hd hlive).1
    · rw [hp] at hlive; simp at hlive
  · have hheap : s1.heap = (p, built_handle st c m u conn) :: s.heap := by rw [hs]
    rw [hheap, heap_find_cons, if_pos rfl] at hlive
    simp at hlive
    subst hlive
    have ht : (built_handle st c m u conn).tablename = spec_tablename c m :=
      make_tablename_eq _ _
    exact ⟨ht, by rw [ht]; exact spec_tablename_length c m, hlen⟩

set_option maxRecDepth 8000 in
/-- C1 (failing input): with a component name and a metric name of 64 bytes
each, the text `comp:metric` needs 130 bytes; `sprintf` runs over the 128-byte
`metric_key` before any table name is derived, in `new_store` and in
`get_store` alike.  One byte less still fits. -/
theorem C1_long_names_overrun_metric_key :
    new_store configured 1 long_comp long_metric 0 env_good = Outcome.undefined ∧
    get_store configured long_comp long_metric = Outcome.undefined ∧
    (key_text long_comp long_metric).length + 1 = 130 ∧
    (new_store configured 1 (bytes "node01") (bytes "cpu.util") 0 env_good).state.map
        (fun s => s.heap.map (fun ah => ah.2.tablename))
      = some [bytes "MetricNode01Cpu_utilValues"] :=
  ⟨by decide, by decide, by decide, by decide⟩

/-! ## C3 and C10: `config` -/

/-- C3 (as stated) fails: on a stored configuration `db1/metrics/svc/old`, a call
without `dbuser` returns `EINVAL` after the stored host and schema have been
replaced, and a call with an empty `dbuser` returns 0. -/
theorem C3_counterexample :
    (∃ s1, config configured avl_no_user copies_succeed = Outcome.ret s1 EINVAL ∧
      s1.db_host = some (bytes "db2") ∧ s1.db_host ≠ configured.db_host ∧
      s1.db_schema ≠ configured.db_schema) ∧
    (∃ s1, config configured avl_empty_user copies_succeed = Outcome.ret s1 0 ∧
      s1.db_user = some []) :=
  ⟨⟨_, rfl, by decide, by decide, by decide⟩, ⟨_, rfl, by decide⟩⟩

/-- C3 (amended): with `dbhost` and `dbschema` supplied (and copied), a call
that does not supply `dbuser` returns `EINVAL` and leaves the stored user and
password as they were; a call that supplies an empty `dbuser` returns 0 and
stores the empty user, which `initConn` then rejects with `EINVAL`. -/
theorem C3_config_user_missing_or_empty (s : State) (avl : List (CStr × CStr))
    (e : ConfigEnv) (host schema : CStr)
    (hfree : s.cfg_lock = false)
    (hh : av_value avl (bytes "dbhost") = some host)
    (hs : av_value avl (bytes "dbschema") = some schema)
    (hmh : e.strdup_host = true) (hms : e.strdup_schema = true) :
    (av_value avl (bytes "dbuser") = none →
      ∃ s1, config s avl e = Outcome.ret s1 EINVAL ∧
        s1.db_user = s.db_user ∧ s1.db_passwd = s.db_passwd) ∧
    (av_value avl (bytes "dbuser") = some [] → e.strdup_user = true →
      e.strdup_passwd = true →
      ∃ s1, config s avl e = Outcome.ret s1 0 ∧ s1.db_user = some [] ∧
        ∀ a b, initConn s1 a b = some (s1, 0, EINVAL)) := by
  obtain ⟨eh, es, eu, ep⟩ := e
  simp only at hmh hms
  subst hmh hms
  obtain ⟨h0, s0, u0, p0, idx, heap, lock, calls⟩ := s
  simp only at hfree
  subst hfree
  constructor
  · intro hu
    exact ⟨{ db_host := some host, db_schema := some schema, db_user := u0, db_passwd := p0,
             metric_idx := idx, heap := heap, cfg_lock := false, db_calls := calls },
      by simp [config, hh, hs, hu, pthread_mutex_lock, pthread_mutex_unlock, strdup], rfl, rfl⟩
  · intro hu hmu hmp
    simp only at hmu hmp
    subst hmu hmp
    cases hp : av_value avl (bytes "dbpasswd") with
    | none =>
      exact ⟨{ db_host := some host, db_schema := some schema, db_user := some [],
               db_passwd := p0, metric_idx := idx, heap := heap, cfg_lock := false,
               db_calls := calls },
        by simp [config, hh, hs, hu, hp, pthread_mutex_lock, pthread_mutex_unlock, strdup],
        rfl, fun a b => by simp [initConn, strlen]⟩
    | some pw =>
      exact ⟨{ db_host := some host, db_schema := some schema, db_user := some [],
               db_passwd := some pw, metric_idx := idx, heap := heap, cfg_lock := false,
               db_calls := calls },
        by simp [config, hh, hs, hu, hp, pthread_mutex_lock, pthread_mutex_unlock, strdup],
        rfl, fun a b => by simp [initConn, strlen]⟩

/-- C3 (amended) at the stored configuration `db1/metrics/svc/old` and the call
`config dbhost=db2 dbschema=m2`. -/
theorem C3_config_user_missing_or_empty_witness :
    ∃ s1, config configured avl_no_user copies_succeed = Outcome.ret s1 EINVAL ∧
      s1.db_user = configured.db_user ∧ s1.db_passwd = configured.db_passwd :=
  (C3_config_user_missing_or_empty configured avl_no_user copies_succeed (bytes "db2")
    (bytes "m2") (by decide) (by decide) (by decide) (by decide) (by decide)).1 (by decide)

/-- C10 (as stated) fails: on a stored configuration with password `old`, a call
that supplies host, schema and user but no `dbpasswd` returns 0 and the stored
password is still `old`. -/
theorem C10_counterexample :
    ∃ s1, config configured avl_no_passwd copies_succeed = Outcome.ret s1 0 ∧
      s1.db_passwd = some (bytes "old") ∧ s1.db_passwd ≠ none :=
  ⟨_, rfl, by decide, by decide⟩

/-- C10 (amended): after a `config` call that supplies `dbhost`, `dbschema` and
`dbuser` and returns 0, the stored host, schema and user are the supplied
ones; the stored password is the supplied one when `dbpasswd` was supplied and
is the previously stored password otherwise; nothing else changes. -/
theorem C10_config_success (s s1 : State) (avl : List (CStr × CStr)) (e : ConfigEnv)
    (host schema user : CStr)
    (hh : av_value avl (bytes "dbhost") = some host)
    (hs : av_value avl (bytes "dbschema") = some schema)
    (hu : av_value avl (bytes "dbuser") = some user)
    (h : config s avl e = Outcome.ret s1 0) :
    s1 = { s with
           db_host := some host, db_schema := some schema, db_user := some user,
           db_passwd := match av_value avl (bytes "dbpasswd") with
             | some passwd => some passwd
             | none => s.db_passwd } := by
  obtain ⟨eh, es, eu, ep⟩ := e
  obtain ⟨h0, s0, u0, p0, idx, heap, lock, calls⟩ := s
  cases lock
  · cases hp : av_value avl (bytes "dbpasswd") <;> cases eh <;> cases es <;> cases eu <;>
      cases ep <;>
      simp [config, hh, hs, hu, hp, pthread_mutex_lock, pthread_mutex_unlock, strdup,
        ENOMEM, EINVAL] at h <;>
      simp [← h]
  · simp [config, hh, pthread_mutex_lock] at h

/-- C10 (amended) at the stored configuration `db1/metrics/svc/old` and the call
`config dbhost=db2 dbschema=m2 dbuser=u2`: the password `old` stays. -/
theorem C10_config_success_witness :
    config configured avl_no_passwd copies_succeed = Outcome.ret
      { configured with
        db_host := some (bytes "db2"), db_schema := some (bytes "m2"),
        db_user := some (bytes "u2"), db_passwd := some (bytes "old") } 0 ∧
    { configured with
        db_host := some (bytes "db2"), db_schema := some (bytes "m2"),
        db_user := some (bytes "u2"), db_passwd := some (bytes "old") } =
    { configured with
        db_host := some (bytes "db2"), db_schema := some (bytes "m2"),
        db_user := some (bytes "u2"),
        db_passwd := match av_value avl_no_passwd (bytes "dbpasswd") with
             | some passwd => some passwd
             | none => configured.db_passwd } :=
  ⟨by decide, C10_config_success configured _ avl_no_passwd copies_succeed (bytes "db2")
    (bytes "m2") (bytes "u2") (by decide) (by decide) (by decide) (by decide)⟩

/-! ## C4: a failed creation -/

set_option maxRecDepth 8000 in
/-- C4 (failing input): on an empty registry, when the server refuses the
connection, or when the `CREATE TABLE` statement fails, `new_store` returns
the non-`NULL` address 4096 of the block it has just freed.  The registry is
unchanged (`get_store` answers `NULL`), and `get_ucontext` on the returned
pointer reads freed memory. -/
theorem C4_failed_creation_returns_freed_block :
    (∃ s1, new_store configured 1 (bytes "node01") (bytes "cpu.util") 0 env_no_connect
        = Outcome.ret s1 4096 ∧
      heap_find s1.heap 4096 = none ∧ s1.metric_idx = configured.metric_idx ∧
      get_store s1 (bytes "node01") (bytes "cpu.util") = Outcome.ret s1 0 ∧
      get_ucontext s1 4096 = Outcome.undefined) ∧
    (∃ s1, new_store configured 1 (bytes "node01") (bytes "cpu.util") 0 env_no_table
        = Outcome.ret s1 4096 ∧
      heap_find s1.heap 4096 = none ∧ s1.metric_idx = configured.metric_idx ∧
      get_store s1 (bytes "node01") (bytes "cpu.util") = Outcome.ret s1 0 ∧
      get_ucontext s1 4096 = Outcome.undefined) :=
  ⟨⟨_, rfl, by decide, by decide, by decide, by decide⟩,
   ⟨_, rfl, by decide, by decide, by decide, by decide⟩⟩

/-! ## C8: closing the `NULL` handle -/

/-- C8 (failing input): `close_store(NULL)` on a state with a free `cfg_lock`
returns with `cfg_lock` held; the next `get_store`, `new_store` or
`close_store` waits for the lock forever. -/
theorem C8_close_null_keeps_cfg_lock :
    close_store configured 0 = Outcome.ret { configured with cfg_lock := true } () ∧
    get_store { configured with cfg_lock := true } (bytes "node01") (bytes "cpu.util")
      = Outcome.blocked ∧
    new_store { configured with cfg_lock := true } 1 (bytes "node01") (bytes "cpu.util") 0
      env_good = Outcome.blocked ∧
    close_store { configured with cfg_lock := true } 0 = Outcome.blocked :=
  ⟨by decide, by decide, by decide, by decide⟩

/-! ## Calls on a free lock -/

theorem get_store_free {s : State} (c m : CStr) (hfree : s.cfg_lock = false) :
    get_store s c m =
      if (key_text c m).length + 1 ≤ 128 then
        Outcome.ret s (idx_find s.metric_idx (key_text c m))
      else Outcome.undefined := by
  unfold get_store
  rw [lock_of_free hfree]
  unfold sprintf
  by_cases hfit : (key_text c m).length + 1 ≤ 128
  · simp only [if_pos hfit]
    rw [unlock_lock hfree]
  · simp only [if_neg hfit]

theorem close_store_live {s : State} {ms : Nat} {hd : mysql_metric_store}
    (hfree : s.cfg_lock = false) (hms : ms ≠ 0) (hfind : heap_find s.heap ms = some hd) :
    close_store s ms = Outcome.ret
      { s with
        metric_idx := idx_delete s.metric_idx hd.metric_key,
        heap := heap_free s.heap ms,
        db_calls := if hd.conn ≠ 0 then s.db_calls ++ [DbCall.close hd.conn]
                    else s.db_calls } () := by
  unfold close_store
  rw [lock_of_free hfree]
  simp only [if_neg hms, hfind]
  cases s
  simp only [pthread_mutex_unlock] at *
  split <;> simp [hfree]

theorem new_store_registered {s : State} (st : Nat) {c m : CStr} (u : Nat) (e : NewStoreEnv)
    (hfree : s.cfg_lock = false) (hfit : (key_text c m).length + 1 ≤ 128)
    (hreg : idx_find s.metric_idx (key_text c m) ≠ 0) :
    new_store s st c m u e = Outcome.ret s (idx_find s.metric_idx (key_text c m)) := by
  unfold new_store
  rw [lock_of_free hfree]
  simp only [sprintf, if_pos hfit]
  rw [if_pos hreg, unlock_lock hfree]

theorem Inv_reachable {P : CStr → CStr → Prop} {pre : List Call} {s : State}
    (hpre : ∀ k ∈ pre, k.Uses P) (hreach : run init pre = some s) : Inv P s :=
  Inv_run (Inv_init P) hpre hreach

theorem uses_true (calls : List Call) : ∀ k ∈ calls, k.Uses (fun _ _ => True) := by
  intro k _
  cases k <;> simp [Call.Uses]

/-! ## C7: `close_store` removes the entry of its handle and no other -/

/-- C7: in a state reached from the initial one, with `h` the handle registered
for the identity `(c, m)`, `close_store(h)` returns; afterwards
`get_store(c, m)` answers `NULL`, and `get_store` answers for every other key
what it answered before. -/
theorem C7_close_removes_only_its_key (pre : List Call) (s : State) (c m : CStr) (h : Nat)
    (hreach : run init pre = some s) (hfree : s.cfg_lock = false)
    (hreg : idx_find s.metric_idx (key_text c m) = h) (hh : h ≠ 0) :
    ∃ s1, close_store s h = Outcome.ret s1 () ∧
      get_store s1 c m = Outcome.ret s1 0 ∧
      ∀ c1 m1, key_text c1 m1 ≠ key_text c m →
        (get_store s1 c1 m1).value = (get_store s c1 m1).value := by
  have hinv : Inv (fun _ _ => True) s := Inv_reachable (uses_true pre) hreach
  obtain ⟨hd, hfind, hkey, _, _, _, _, hfit, _⟩ := hinv.1 (key_text c m) (by rw [hreg]; exact hh)
  rw [hreg] at hfind
  refine ⟨_, close_store_live hfree hh hfind, ?_, ?_⟩
  · rw [get_store_free c m (by simpa using hfree)]
    rw [if_pos hfit]
    simp [hkey, idx_find_delete]
  · intro c1 m1 hne
    rw [get_store_free c1 m1 (by simpa using hfree), get_store_free c1 m1 hfree]
    split
    · simp [Outcome.value, hkey, idx_find_delete, hne]
    · rfl

set_option maxRecDepth 8000 in
/-- C7 on the round-trip scenario: closing the handle 4096 registered for
`("node01", "cpu.util")`. -/
theorem C7_close_removes_only_its_key_witness :
    ∃ s1, close_store registered 4096 = Outcome.ret s1 () ∧
      get_store s1 (bytes "node01") (bytes "cpu.util") = Outcome.ret s1 0 ∧
      ∀ c1 m1, key_text c1 m1 ≠ key_text (bytes "node01") (bytes "cpu.util") →
        (get_store s1 c1 m1).value = (get_store registered c1 m1).value :=
  C7_close_removes_only_its_key round_trip_calls registered (bytes "node01")
    (bytes "cpu.util") 4096 (by decide) (by decide) (by decide) (by decide)

/-! ## A registered handle stays registered until it is closed -/

theorem Held_exec {P : CStr → CStr → Prop} {s s1 : State} {p : Nat} {key : CStr}
    {hd : mysql_metric_store} {k : Call}
    (hinv : Inv P s) (hheld : Held s p key hd) (hk : k ≠ Call.close_store p)
    (h : exec s k = some s1) : Held s1 p key hd := by
  have hp0 : p ≠ 0 := (hinv.2 p hd hheld.2).1
  have same : s1.metric_idx = s.metric_idx → s1.heap = s.heap → Held s1 p key hd := by
    intro hi hh
    unfold Held
    rw [hi, hh]
    exact hheld
  cases k with
  | config avl e =>
    obtain ⟨v, hv⟩ := state_eq_some h
    obtain ⟨hi, hh, _⟩ := config_ret hv
    exact same hi hh
  | get_store c m =>
    obtain ⟨v, hv⟩ := state_eq_some h
    rw [(get_store_ret hv).1]; exact hheld
  | new_store st c m u e =>
    obtain ⟨v, hv⟩ := state_eq_some h
    obtain ⟨_, _, hcase⟩ := new_store_ret hv
    rcases hcase with ⟨_, _, hs⟩ | ⟨_, _, hs⟩ | ⟨habsent, _, hfresh, conn, _, hs⟩
    · rw [hs]; exact hheld
    · exact same (by rw [hs]) (by rw [hs])
    · have hidx : s1.metric_idx = idx_add s.metric_idx (key_text c m) v := by rw [hs]
      have hheap : s1.heap = (v, built_handle st c m u conn) :: s.heap := by rw [hs]
      unfold Held
      rw [hidx, hheap, idx_find_add, heap_find_cons]
      have hkey : key_text c m ≠ key := by
        intro heq; rw [heq, hheld.1] at habsent; exact hp0 habsent
      have hvp : v ≠ p := by
        intro heq; rw [heq, hheld.2] at hfresh; simp at hfresh
      rw [if_neg hkey, if_neg hvp]
      exact hheld
  | get_ucontext ms =>
    simp only [exec, get_ucontext] at h
    split at h
    · simp [Outcome.state] at h
    · simp [Outcome.state] at h; rw [← h]; exact hheld
  | store ms comp_id tv_sec tv_usec val level rc =>
    obtain ⟨v, hv⟩ := state_eq_some h
    have hs := store_ret hv
    exact same (by rw [hs]) (by rw [hs])
  | flush_store ms =>
    simp [exec, flush_store, Outcome.state] at h; rw [← h]; exact hheld
  | close_store ms =>
    obtain ⟨v, hv⟩ := state_eq_some h
    obtain ⟨_, hcase⟩ := close_store_ret hv
    rcases hcase with ⟨_, hs⟩ | ⟨_, hd1, hfind, hs⟩
    · exact same (by rw [hs]) (by rw [hs])
    · have hidx : s1.metric_idx = idx_delete s.metric_idx hd1.metric_key := by rw [hs]
      have hheap : s1.heap = heap_free s.heap ms := by rw [hs]
      have hne : p ≠ ms := by
        intro heq; exact hk (by rw [heq])
      have hkey : key ≠ hd1.metric_key := by
        intro heq
        have := (hinv.2 ms hd1 hfind).2
        rw [← heq, hheld.1] at this
        exact hne this
      unfold Held
      rw [hidx, hheap, idx_find_delete, heap_find_free, if_neg hkey, if_neg hne]
      exact hheld

theorem Held_run {P : CStr → CStr → Prop} {p : Nat} {key : CStr} {hd : mysql_metric_store}
    {calls : List Call} :
    ∀ {s s1 : State}, Inv P s → Held s p key hd → (∀ k ∈ calls, k.Uses P) →
      Call.close_store p ∉ calls → run s calls = some s1 → Held s1 p key hd := by
  induction calls with
  | nil => intro s s1 _ hheld _ _ h; simp [run] at h; rw [← h]; exact hheld
  | cons k rest ih =>
    intro s s1 hinv hheld hall hopen h
    simp only [run] at h
    cases hk : exec s k with
    | none => rw [hk] at h; simp at h
    | some s2 =>
      rw [hk] at h
      have hkne : k ≠ Call.close_store p := by
        intro heq; exact hopen (by simp [heq])
      exact ih (Inv_exec hinv (hall k (by simp)) hk) (Held_exec hinv hheld hkne hk)
        (fun k1 hk1 => hall k1 (by simp [hk1])) (fun hmem => hopen (by simp [hmem])) h

/-- A `new_store` that returns a live handle leaves it registered under the key
of the requested identity. -/
theorem new_store_live {P : CStr → CStr → Prop} {s s1 : State} {st : Nat} {c m : CStr}
    {u : Nat} {e : NewStoreEnv} {p : Nat}
    (hinv : Inv P s) (h : new_store s st c m u e = Outcome.ret s1 p)
    (hlive : heap_find s1.heap p ≠ none) :
    ∃ hd, Held s1 p (key_text c m) hd ∧
      (idx_find s.metric_idx (key_text c m) = 0 →
        ∃ conn, hd = built_handle st c m u conn) := by
  obtain ⟨_, _, hcase⟩ := new_store_ret h
  rcases hcase with ⟨hne, hp, hs⟩ | ⟨_, hp, hs⟩ | ⟨habsent, _, _, conn, _, hs⟩
  · subst hs
    obtain ⟨hd, hfind, _⟩ := hinv.1 (key_text c m) hne
    rw [← hp] at hfind
    exact ⟨hd, ⟨hp.symm, hfind⟩, fun h0 => absurd h0 hne⟩
  · exfalso
    have hheap : s1.heap = s.heap := by rw [hs]
    rw [hheap] at hlive
    rcases hp with hp | hp
    · subst hp
      cases hf : heap_find s.heap 0 with
      | none => exact hlive hf
      | some hd => exact (hinv.2 0 hd hf).1 rfl
    · exact hlive hp
  · have hidx : s1.metric_idx = idx_add s.metric_idx (key_text c m) p := by rw [hs]
    have hheap : s1.heap = (p, built_handle st c m u conn) :: s.heap := by rw [hs]
    refine ⟨built_handle st c m u conn, ?_, fun _ => ⟨conn, rfl⟩⟩
    unfold Held
    rw [hidx, hheap, idx_find_add, heap_find_cons]
    simp

/-! ## C5: `new_store` on a registered identity -/

set_option maxRecDepth 8000 in
/-- C5 (as stated) fails: on the registry that holds the handle 4096 created by
`new_store("node01", "cpu.util", 0)`, the call `new_store("node01",
"cpu.util", 5)` succeeds (it returns the live handle 4096); a later
`new_store("node01", "cpu.util", 9)` returns the same handle, and
`get_ucontext` of it is 0, not 5.  The same happens across identities that share
a key: on the registry holding the handle of `("a:b", "c")`, created with
context 0, `new_store("a", "b:c", 5)` succeeds and the context stays 0. -/
theorem C5_counterexample :
    (new_store registered 1 (bytes "node01") (bytes "cpu.util") 5 env_good2
        = Outcome.ret registered 4096 ∧
      heap_find registered.heap 4096 ≠ none ∧
      new_store registered 1 (bytes "node01") (bytes "cpu.util") 9 env_good2
        = Outcome.ret registered 4096 ∧
      get_ucontext registered 4096 = Outcome.ret registered 0 ∧
      get_ucontext registered 4096 ≠ Outcome.ret registered 5) ∧
    (new_store registered_colon 1 (bytes "a") (bytes "b:c") 5 env_good2
        = Outcome.ret registered_colon 4096 ∧
      heap_find registered_colon.heap 4096 ≠ none ∧
      new_store registered_colon 1 (bytes "a") (bytes "b:c") 9 env_good2
        = Outcome.ret registered_colon 4096 ∧
      get_ucontext registered_colon 4096 = Outcome.ret registered_colon 0 ∧
      get_ucontext registered_colon 4096 ≠ Outcome.ret registered_colon 5) :=
  ⟨⟨by decide, by decide, by decide, by decide, by decide⟩,
   ⟨by decide, by decide, by decide, by decide, by decide⟩⟩

/-- C5 (amended): let `new_store(c, m, ctx1)` succeed with the handle `p` in a
state reached from the initial one, and let any calls follow that return and
do not close `p`.  Then, on a free lock, `new_store(c, m, ctx2)` returns `p`
and leaves the whole state (registry, handles, record of database calls) as it
is; the handle is what it was after the first call, and so is the value of
`get_ucontext(p)`; that value is `ctx1` when the first call created the handle
(the key was not registered before it). -/
theorem C5_new_store_idempotent (pre calls : List Call) (s s1 s2 : State) (st st2 : Nat)
    (c m : CStr) (ctx1 ctx2 : Nat) (e1 e2 : NewStoreEnv) (p : Nat)
    (hreach : run init pre = some s)
    (hnew : new_store s st c m ctx1 e1 = Outcome.ret s1 p)
    (hlive : heap_find s1.heap p ≠ none)
    (hlater : run s1 calls = some s2)
    (hopen : Call.close_store p ∉ calls)
    (hfree : s2.cfg_lock = false) :
    new_store s2 st2 c m ctx2 e2 = Outcome.ret s2 p ∧
      heap_find s2.heap p = heap_find s1.heap p ∧
      (get_ucontext s2 p).value = (get_ucontext s1 p).value ∧
      (get_ucontext s2 p).value ≠ none ∧
      (idx_find s.metric_idx (key_text c m) = 0 →
        get_ucontext s2 p = Outcome.ret s2 ctx1) := by
  have hinv : Inv (fun _ _ => True) s := Inv_reachable (uses_true pre) hreach
  have hinv1 : Inv (fun _ _ => True) s1 := Inv_new_store hinv trivial hnew
  obtain ⟨hd, hheld, hbuilt⟩ := new_store_live hinv hnew hlive
  have hheld2 : Held s2 p (key_text c m) hd :=
    Held_run hinv1 hheld (uses_true calls) hopen hlater
  have hp0 : p ≠ 0 := (hinv1.2 p hd hheld.2).1
  have hfit := (new_store_ret hnew).2.1
  refine ⟨?_, ?_, ?_, ?_, ?_⟩
  · rw [new_store_registered st2 ctx2 e2 hfree hfit (by rw [hheld2.1]; exact hp0), hheld2.1]
  · rw [hheld2.2, hheld.2]
  · unfold get_ucontext
    rw [hheld2.2, hheld.2]
    rfl
  · unfold get_ucontext
    rw [hheld2.2]
    simp [Outcome.value]
  · intro hfirst
    obtain ⟨conn, hconn⟩ := hbuilt hfirst
    unfold get_ucontext
    rw [hheld2.2, hconn]
    rfl

set_option maxRecDepth 8000 in
/-- C5 (amended) on the round-trip scenario: after `new_store("node01",
"cpu.util", 0)` and one `store`, a `new_store` for the same identity with
context 9 and a failing environment returns the handle 4096, the handle is
unchanged and the context is still 0. -/
theorem C5_new_store_idempotent_witness :
    new_store ((run registered [Call.store 4096 7 1700000000 0 42 0 0]).getD init) 5
        (bytes "node01") (bytes "cpu.util") 9 env_no_connect
      = Outcome.ret ((run registered [Call.store 4096 7 1700000000 0 42 0 0]).getD init) 4096 ∧
    heap_find ((run registered [Call.store 4096 7 1700000000 0 42 0 0]).getD init).heap 4096
      = heap_find registered.heap 4096 ∧
    get_ucontext ((run registered [Call.store 4096 7 1700000000 0 42 0 0]).getD init) 4096
      = Outcome.ret ((run registered [Call.store 4096 7 1700000000 0 42 0 0]).getD init) 0 :=
  (fun h => ⟨h.1, h.2.1, h.2.2.2.2 (by decide)⟩)
    (C5_new_store_idempotent [Call.config avl_round_trip copies_succeed]
      [Call.store 4096 7 1700000000 0 42 0 0]
      ((run init [Call.config avl_round_trip copies_succeed]).getD init) registered
      ((run registered [Call.store 4096 7 1700000000 0 42 0 0]).getD init) 1 5
      (bytes "node01") (bytes "cpu.util") 0 9 env_good env_no_connect 4096
      (by decide) (by decide) (by decide) (by decide) (by decide) (by decide))

/-! ## C6: one handle per identity -/

theorem key_text_injective {c1 m1 c2 m2 : CStr} (h1 : NoColon c1) (h2 : NoColon c2)
    (h : key_text c1 m1 = key_text c2 m2) : c1 = c2 ∧ m1 = m2 := by
  unfold NoColon at h1 h2
  unfold key_text at h
  induction c1 generalizing c2 with
  | nil =>
    cases c2 with
    | nil => simp at h; exact ⟨rfl, h⟩
    | cons b rest =>
      simp at h
      exact absurd (by simp [← h.1]) h2
  | cons a rest ih =>
    cases c2 with
    | nil =>
      simp at h
      exact absurd (by simp [h.1]) h1
    | cons b rest2 =>
      simp at h
      obtain ⟨hab, hrest⟩ := h
      have := @ih rest2 (fun hm => h1 (by simp [hm])) (fun hm => h2 (by simp [hm])) hrest
      exact ⟨by rw [hab, this.1], this.2⟩

set_option maxRecDepth 8000 in
/-- C6 (as stated) fails: the identities `("a:b", "c")` and `("a", "b:c")` differ
but share the key `a:b:c`.  After `new_store("a:b", "c")` has created the
handle 4096, `new_store("a", "b:c")` succeeds with the same handle 4096, whose
table is `MetricA_bCValues` and not `MetricAB_cValues`, the derivation of the
identity requested. -/
theorem C6_counterexample :
    run init [Call.config avl_round_trip copies_succeed,
      Call.new_store 1 (bytes "a:b") (bytes "c") 0 env_good] = some registered_colon ∧
    (bytes "a:b", bytes "c") ≠ (bytes "a", bytes "b:c") ∧
    idx_find registered_colon.metric_idx (key_text (bytes "a:b") (bytes "c")) = 4096 ∧
    new_store registered_colon 1 (bytes "a") (bytes "b:c") 0 env_good2
      = Outcome.ret registered_colon 4096 ∧
    (heap_find registered_colon.heap 4096).map (fun hd => hd.tablename)
      = some (bytes "MetricA_bCValues") ∧
    spec_tablename (bytes "a") (bytes "b:c") = bytes "MetricAB_cValues" ∧
    bytes "MetricA_bCValues" ≠ spec_tablename (bytes "a") (bytes "b:c") :=
  ⟨by decide, by decide, by decide, by decide, by decide, by decide, by decide⟩

/-- C6 (amended): in a state reached from the initial one by calls whose
component names contain no `:`, let `new_store` succeed (return a live handle)
for `(c1, m1)` and then for a different identity `(c2, m2)`, both component
names without `:`.  Then the two handles differ, and each one carries the
table name derived from the identity it was requested for. -/
theorem C6_distinct_identities_distinct_handles (pre : List Call) (s s1 s2 : State)
    (st1 st2 : Nat) (c1 m1 c2 m2 : CStr) (u1 u2 : Nat) (e1 e2 : NewStoreEnv) (p1 p2 : Nat)
    (hpre : ∀ k ∈ pre, k.Uses (fun c _ => NoColon c))
    (hreach : run init pre = some s)
    (hc1 : NoColon c1) (hc2 : NoColon c2) (hne : (c1, m1) ≠ (c2, m2))
    (h1 : new_store s st1 c1 m1 u1 e1 = Outcome.ret s1 p1)
    (hlive1 : heap_find s1.heap p1 ≠ none)
    (h2 : new_store s1 st2 c2 m2 u2 e2 = Outcome.ret s2 p2)
    (hlive2 : heap_find s2.heap p2 ≠ none) :
    p1 ≠ p2 ∧
    (∃ d1, heap_find s2.heap p1 = some d1 ∧ d1.tablename = spec_tablename c1 m1) ∧
    (∃ d2, heap_find s2.heap p2 = some d2 ∧ d2.tablename = spec_tablename c2 m2) := by
  have hinv : Inv (fun c _ => NoColon c) s := Inv_reachable hpre hreach
  have hinv1 : Inv (fun c _ => NoColon c) s1 := Inv_new_store hinv hc1 h1
  have hinv2 : Inv (fun c _ => NoColon c) s2 := Inv_new_store hinv1 hc2 h2
  obtain ⟨d1, hheld1, _⟩ := new_store_live hinv h1 hlive1
  obtain ⟨d2, hheld2, _⟩ := new_store_live hinv1 h2 hlive2
  have hstep : exec s1 (Call.new_store st2 c2 m2 u2 e2) = some s2 := by
    simp [exec, h2, Outcome.state]
  have hheld12 : Held s2 p1 (key_text c1 m1) d1 :=
    Held_exec hinv1 hheld1 (by simp) hstep
  have hp1 : p1 ≠ 0 := (hinv2.2 p1 d1 hheld12.2).1
  have hp2 : p2 ≠ 0 := (hinv2.2 p2 d2 hheld2.2).1
  have hkeys : key_text c1 m1 ≠ key_text c2 m2 := by
    intro heq
    obtain ⟨hc, hm⟩ := key_text_injective hc1 hc2 heq
    exact hne (by rw [hc, hm])
  have table : ∀ (p : Nat) (d : mysql_metric_store) (c m : CStr), NoColon c →
      Held s2 p (key_text c m) d → p ≠ 0 → d.tablename = spec_tablename c m := by
    intro p d c m hc hheld hp
    obtain ⟨d0, hfind, _, c0, m0, hc0, hkey0, _, htab⟩ :=
      hinv2.1 (key_text c m) (by rw [hheld.1]; exact hp)
    rw [hheld.1, hheld.2] at hfind
    simp at hfind
    subst hfind
    obtain ⟨hc, hm⟩ := key_text_injective hc0 hc hkey0
    rw [htab, hc, hm]
  refine ⟨?_, ⟨d1, hheld12.2, table p1 d1 c1 m1 hc1 hheld12 hp1⟩,
    ⟨d2, hheld2.2, table p2 d2 c2 m2 hc2 hheld2 hp2⟩⟩
  intro heq
  obtain ⟨da, hfa, hka, _⟩ := hinv2.1 (key_text c1 m1) (by rw [hheld12.1]; exact hp1)
  obtain ⟨db, hfb, hkb, _⟩ := hinv2.1 (key_text c2 m2) (by rw [hheld2.1]; exact hp2)
  rw [hheld12.1] at hfa
  rw [hheld2.1, ← heq, hfa] at hfb
  simp at hfb
  rw [hfb] at hka
  exact hkeys (by rw [← hka, ← hkb])

set_option maxRecDepth 8000 in
/-- C6 (amended) on the round-trip scenario: after `("node01", "cpu.util")`, a
request for `("node01", "mem.free")` yields another handle, and both carry
their own table name. -/
theorem C6_distinct_identities_distinct_handles_witness :
    (4096 : Nat) ≠ 8192 ∧
    (∃ d1, heap_find ((run registered
          [Call.new_store 1 (bytes "node01") (bytes "mem.free") 0 env_good2]).getD init).heap
          4096 = some d1 ∧
        d1.tablename = spec_tablename (bytes "node01") (bytes "cpu.util")) ∧
    (∃ d2, heap_find ((run registered
          [Call.new_store 1 (bytes "node01") (bytes "mem.free") 0 env_good2]).getD init).heap
          8192 = some d2 ∧
        d2.tablename = spec_tablename (bytes "node01") (bytes "mem.free")) :=
  C6_distinct_identities_distinct_handles [Call.config avl_round_trip copies_succeed]
    ((run init [Call.config avl_round_trip copies_succeed]).getD init) registered
    ((run registered
      [Call.new_store 1 (bytes "node01") (bytes "mem.free") 0 env_good2]).getD init)
    1 1 (bytes "node01") (bytes "cpu.util") (bytes "node01") (bytes "mem.free") 0 0
    env_good env_good2 4096 8192
    (by simp [Call.Uses]) (by decide) (by decide) (by decide) (by decide) (by decide) (by decide)
    (by decide) (by decide)

/-! ## C9: the INSERT statement -/

theorem fmt_u_length (n e : Nat) (he : 0 < e) (hn : n < 10 ^ e) : (fmt_u n).length ≤ e := by
  have h := Nat.repr_length n e he hn
  simpa [fmt_u, Nat.repr] using h

theorem fmt_d_length (n : Int) (e : Nat) (he : 0 < e) (hn : n.natAbs < 10 ^ e) :
    (fmt_d n).length ≤ e + 1 := by
  have h := fmt_u_length n.natAbs e he hn
  unfold fmt_d
  split
  · simp; exact h
  · omega

theorem fmt_d_natCast (n : Nat) : fmt_d (n : Int) = fmt_u n := by
  unfold fmt_d
  rw [if_neg (by omega)]
  simp

theorem toInt32_of_range (x : Int) (hlo : -2147483648 ≤ x) (hhi : x < 2147483648) :
    toInt32 x = x := by
  unfold toInt32
  omega

theorem insert_statement_eq (t : CStr) (comp_id val : Nat) (tv_sec level : Int)
    (ht : t.length ≤ 138) (hcomp : comp_id < 2147483648)
    (hlo : -2147483648 ≤ tv_sec) (hhi : tv_sec < 2147483648)
    (hval : val < 18446744073709551616)
    (hllo : -9223372036854775808 ≤ level) (hlhi : level < 9223372036854775808) :
    insert_statement t comp_id val tv_sec level = spec_insert t comp_id val tv_sec level := by
  unfold insert_statement spec_insert snprintf
  simp only []
  rw [toInt32_of_range tv_sec hlo hhi, toInt32_of_range (comp_id : Int) (by omega) (by omega),
    fmt_d_natCast]
  apply List.take_of_length_le
  have h1 := fmt_u_length comp_id 10 (by decide) (by omega)
  have h2 := fmt_u_length val 20 (by decide) (by omega)
  have h3 := fmt_d_length tv_sec 10 (by decide) (by omega)
  have h4 := fmt_d_length level 19 (by decide) (by omega)
  simp [bytes]
  omega

set_option maxRecDepth 8000 in
/-- When the server rejects the statement, `store` reaches the mismatched
`msglog` call of line 400 after the statement has been sent. -/
theorem store_rejected_statement_undefined :
    store registered 4096 7 1700000000 0 42 3 1 = Outcome.undefined ∧
    (store_send registered 4096 7 1700000000 0 42 3).value = some none :=
  ⟨by decide, by decide⟩

set_option maxRecDepth 8000 in
/-- C9 (as stated) fails: for the component id 4294967295 the statement issued
carries `-1`, and for the timestamp 2147483648 s it carries `-2147483648`. -/
theorem C9_counterexample :
    (store_send registered 4096 4294967295 1700000000 0 42 0).state.map
        (fun s => queries (s.db_calls.drop registered.db_calls.length))
      = some [bytes
          "INSERT INTO MetricNode01Cpu_utilValues VALUES( NULL, -1, 42, FROM_UNIXTIME(1700000000), 0 )"] ∧
    (store_send registered 4096 7 2147483648 0 42 0).state.map
        (fun s => queries (s.db_calls.drop registered.db_calls.length))
      = some [bytes
          "INSERT INTO MetricNode01Cpu_utilValues VALUES( NULL, 7, 42, FROM_UNIXTIME(-2147483648), 0 )"] ∧
    spec_insert (bytes "MetricNode01Cpu_utilValues") 4294967295 42 1700000000 0 = bytes
      "INSERT INTO MetricNode01Cpu_utilValues VALUES( NULL, 4294967295, 42, FROM_UNIXTIME(1700000000), 0 )" ∧
    insert_statement (bytes "MetricNode01Cpu_utilValues") 4294967295 42 1700000000 0
      ≠ spec_insert (bytes "MetricNode01Cpu_utilValues") 4294967295 42 1700000000 0 ∧
    insert_statement (bytes "MetricNode01Cpu_utilValues") 7 42 2147483648 0
      ≠ spec_insert (bytes "MetricNode01Cpu_utilValues") 7 42 2147483648 0 :=
  ⟨by decide, by decide, by decide, by decide, by decide⟩

/-- C9 (amended): for a live handle with an open connection in a state reached
from the initial one, a component id below `2^31`, a timestamp whose seconds
lie in `[-2^31, 2^31)`, any `tv_usec`, any 64-bit value and any `long` level,
`store` sends exactly one statement, on the connection of the handle, whatever
the server answers: the insert into the table of the handle that carries the
component id, the value and `tv_sec` as decimal numbers; and when the server
accepts the statement, `store` returns 0. -/
theorem C9_store_statement (pre : List Call) (s : State) (ms : Nat) (hd : mysql_metric_store)
    (comp_id val : Nat) (tv_sec tv_usec level : Int)
    (hreach : run init pre = some s)
    (hfind : heap_find s.heap ms = some hd) (hconn : hd.conn ≠ 0)
    (hcomp : comp_id < 2147483648)
    (hlo : -2147483648 ≤ tv_sec) (hhi : tv_sec < 2147483648)
    (hval : val < 18446744073709551616)
    (hllo : -9223372036854775808 ≤ level) (hlhi : level < 9223372036854775808) :
    store_send s ms comp_id tv_sec tv_usec val level =
      Outcome.ret
        { s with db_calls := s.db_calls ++
            [DbCall.query hd.conn (spec_insert hd.tablename comp_id val tv_sec level)] }
        none ∧
    store s ms comp_id tv_sec tv_usec val level 0 =
      Outcome.ret
        { s with db_calls := s.db_calls ++
            [DbCall.query hd.conn (spec_insert hd.tablename comp_id val tv_sec level)] }
        0 := by
  have hinv : Inv (fun _ _ => True) s := Inv_reachable (uses_true pre) hreach
  obtain ⟨hms, hreg⟩ := hinv.2 ms hd hfind
  obtain ⟨d0, hf0, _, c, m, _, hkey, hfit, htab⟩ :=
    hinv.1 hd.metric_key (by rw [hreg]; exact hms)
  rw [hreg, hfind] at hf0
  simp at hf0
  subst hf0
  have hlen : hd.tablename.length ≤ 138 := by
    rw [htab, spec_tablename_length]
    rw [← hkey] at hfit
    simp [key_text] at hfit
    omega
  have hsend : store_send s ms comp_id tv_sec tv_usec val level =
      Outcome.ret
        { s with db_calls := s.db_calls ++
            [DbCall.query hd.conn (spec_insert hd.tablename comp_id val tv_sec level)] }
        none := by
    unfold store_send
    rw [if_neg hms]
    simp only [hfind, if_neg hconn]
    rw [insert_statement_eq hd.tablename comp_id val tv_sec level hlen hcomp hlo hhi hval
      hllo hlhi]
  refine ⟨hsend, ?_⟩
  unfold store
  rw [hsend]
  simp

set_option maxRecDepth 8000 in
/-- C9 (amended) on the round-trip scenario: `store(handle, 7, t=1700000000, 42)`
sends `INSERT INTO MetricNode01Cpu_utilValues VALUES( NULL, 7, 42,
FROM_UNIXTIME(1700000000), 3 )` and returns 0. -/
theorem C9_store_statement_witness :
    (store_send registered 4096 7 1700000000 999999 42 3 =
      Outcome.ret
        { registered with db_calls := registered.db_calls ++
            [DbCall.query 77 (spec_insert (bytes "MetricNode01Cpu_utilValues") 7 42
              1700000000 3)] }
        none ∧
    store registered 4096 7 1700000000 999999 42 3 0 =
      Outcome.ret
        { registered with db_calls := registered.db_calls ++
            [DbCall.query 77 (spec_insert (bytes "MetricNode01Cpu_utilValues") 7 42
              1700000000 3)] }
        0) ∧
    spec_insert (bytes "MetricNode01Cpu_utilValues") 7 42 1700000000 3 = bytes
      "INSERT INTO MetricNode01Cpu_utilValues VALUES( NULL, 7, 42, FROM_UNIXTIME(1700000000), 3 )" :=
  ⟨C9_store_statement round_trip_calls registered 4096
    (built_handle 1 (bytes "node01") (bytes "cpu.util") 0 77) 7 42 1700000000 999999 3
    (by decide) (by decide) (by decide) (by decide) (by decide) (by decide) (by decide)
    (by decide) (by decide), by decide⟩

end StoreMysql
